import Mathlib

/-!
Shallow embedding of the BotcoinPoolV2 contract
(src BotcoinPoolV2.sol, the version bundled with BotcoinPoolFactoryV2)
together with the repository's model of the external Mining System
(MockMiningV2.sol), and proofs settling the frozen claims about it.

Modelling conventions:
* uint256 values are Nat.  Solidity 0.8 checked arithmetic cannot
  overflow at the magnitudes the contract admits (deposits are capped at
  1e26 base units), so no 2^256 wrap is modelled.
* Subtractions in the contract are either guarded by an explicit require
  on the same quantities or act on quantities shown invariant-equal
  (sum of userDeposit = totalDeposits = totalRewardableStake, and
  userRewardPerTokenPaid ≤ rewardPerTokenStored), so Nat truncated
  subtraction agrees with the EVM checked subtraction on all states the
  contract can reach; proofs of those invariants are below.
* ERC20 transfers in and out of the pool are modelled by the pool's own
  token balance (poolBalance); counterparty balances are not tracked.
  The caller-side funding of safeTransferFrom is assumed sufficient
  (the environment chooses the deposit amounts it can fund).
* mining.claim / bonusEpoch.claimBonus pay the pool an amount chosen by
  the environment (the balance delta measured by the contract); a revert
  inside the external call leaves every balance unchanged, which in this
  model coincides with not performing the operation at all.
* address(0) never originates a transaction, so the account argument of
  the updateReward modifier is always a live address; the zero-address
  guard of the modifier and of setOperator is therefore not modelled
  over the abstract address type.
-/

namespace BotcoinPool

/-- SCALE factor 1e18 used by the Synthetix-style accumulator. -/
def SCALE : Nat := 10 ^ 18

/-- MINING_MAX_STAKE, the Mining System absolute cap:
100,000,000 tokens of 1e18 base units. -/
def MINING_MAX_STAKE : Nat := 100000000 * 10 ^ 18

/-- MAX_FEE_BPS: operator fee ceiling (10 percent). -/
def MAX_FEE_BPS : Nat := 1000

/-- MAX_PROTOCOL_FEE_BPS: protocol fee ceiling (5 percent). -/
def MAX_PROTOCOL_FEE_BPS : Nat := 500

/-- PoolState enum of BotcoinPoolV2. -/
inductive PoolState where
  | Idle
  | Active
  | Unstaking
  | Withdrawable
  deriving DecidableEq, Repr

/-- Revert reasons of the contract (the require strings of
BotcoinPoolV2) plus the reasons propagated from the Mining System as
modelled by MockMiningV2. -/
inductive Err where
  | zeroAmount            -- "Zero amount"
  | depositsOnlyWhenIdle  -- "Deposits only when idle"
  | exceedsMiningMax      -- "Exceeds mining max"
  | poolCapReached        -- "Pool cap reached"
  | poolNotIdle           -- "Pool not idle"
  | nothingToStake        -- "Nothing to stake"
  | poolNotActive         -- "Pool not active"
  | notAuthorized         -- "Not authorized"
  | notUnstaking          -- "Not unstaking"
  | cooldownNotExpired    -- "Cooldown not expired"
  | fundsStakedInMining   -- "Funds staked in mining"
  | exceedsDeposit        -- "Exceeds deposit"
  | feeCanOnlyDecrease    -- "Fee can only decrease"
  | notOwner              -- Ownable: caller is not the owner
  | miningNothingStaked   -- MiningV2 "Nothing staked"
  | miningAlreadyUnstaking -- MiningV2 "Already unstaking"
  | miningNotUnstaking    -- MiningV2 "Not unstaking"
  deriving DecidableEq, Repr

/-- The pool's view of the external Mining System, following
MockMiningV2.sol: its own staker record plus the epoch counter. -/
structure Mining where
  staked : Nat
  isUnstaking : Bool
  unstakeTimestamp : Nat
  unstakeCooldown : Nat
  currentEpoch : Nat
  deriving Repr

/-- Combined state: the storage of BotcoinPoolV2, the pool's staker
record inside the Mining System, the block timestamp, and the pool's
staking-token balance. -/
structure Sys (Addr : Type) where
  owner : Addr
  operator : Addr
  protocolFeeBps : Nat      -- immutable
  maxStake : Nat            -- immutable; 0 = no pool-level cap
  feeBps : Nat              -- mutable, can only decrease
  poolState : PoolState
  userDeposit : Addr → Nat
  totalDeposits : Nat
  rewardPerTokenStored : Nat
  userRewardPerTokenPaid : Addr → Nat
  rewards : Addr → Nat
  totalRewardableStake : Nat
  mining : Mining
  now : Nat                 -- block.timestamp
  poolBalance : Nat         -- stakingToken.balanceOf(pool)

/-- The externally callable operations of the pool, plus environment
moves (time and epoch advance, direct token donations to the pool, the
amount an external claim pays out). -/
inductive Op (Addr : Type) where
  | deposit (sender : Addr) (amount : Nat)
  | stakeIntoMining
  | triggerUnstake
  | cancelUnstake (sender : Addr)
  | finalizeWithdraw
  | withdrawShare (sender : Addr) (amount : Nat)
  | triggerClaim (received : Nat)
  | triggerBonusClaim (received : Nat)
  | claimReward (sender : Addr)
  | setFee (sender : Addr) (newFeeBps : Nat)
  | setOperator (sender : Addr) (newOp : Addr)
  | envAdvance (dt dEpoch : Nat)
  | donate (amount : Nat)

/-- View helper earned(account). -/
def earned {Addr : Type} (s : Sys Addr) (account : Addr) : Nat :=
  if s.totalRewardableStake = 0 then s.rewards account
  else s.rewards account +
    s.userDeposit account *
      (s.rewardPerTokenStored - s.userRewardPerTokenPaid account) / SCALE

/-- The updateReward(account) modifier (account is never address(0)
for a transaction sender). -/
def updateReward {Addr : Type} [DecidableEq Addr] (s : Sys Addr) (account : Addr) :
    Sys Addr :=
  if 0 < s.totalRewardableStake then
    { s with
      rewards := Function.update s.rewards account (earned s account)
      userRewardPerTokenPaid :=
        Function.update s.userRewardPerTokenPaid account s.rewardPerTokenStored }
  else s

/-- The fee cascade of _distributeRewards: protocol cut, operator cut,
distributable remainder.  Nat division is floor division. -/
def feeCascade (amount protocolFeeBps feeBps : Nat) : Nat × Nat × Nat :=
  let protocolFee := amount * protocolFeeBps / 10000
  let afterProtocol := amount - protocolFee
  let operatorFee := afterProtocol * feeBps / 10000
  (protocolFee, operatorFee, afterProtocol - operatorFee)

/-- _distributeRewards(amount): pay the protocol and operator cuts out
of the pool balance, then fold the remainder into the accumulator when
there is any rewardable stake.  (A zero-amount safeTransfer is skipped
by the contract; on balances that is the same as transferring zero.) -/
def distributeRewards {Addr : Type} (s : Sys Addr) (amount : Nat) : Sys Addr :=
  let c := feeCascade amount s.protocolFeeBps s.feeBps
  let s1 := { s with poolBalance := s.poolBalance - c.1 - c.2.1 }
  if 0 < c.2.2 ∧ 0 < s.totalRewardableStake then
    { s1 with rewardPerTokenStored :=
        s1.rewardPerTokenStored + c.2.2 * SCALE / s.totalRewardableStake }
  else s1

/-- One externally observable transition.  A returned error is a revert:
the caller observes no state change. -/
def step {Addr : Type} [DecidableEq Addr] (s : Sys Addr) :
    Op Addr → Except Err (Sys Addr)
  | .deposit sender amount =>
    -- modifier updateReward(msg.sender) runs first; a later revert
    -- undoes it, so only the success branch keeps its effect
    let s0 := updateReward s sender
    if amount = 0 then .error .zeroAmount
    else if s0.poolState ≠ PoolState.Idle then .error .depositsOnlyWhenIdle
    else if MINING_MAX_STAKE < s0.totalDeposits + amount then .error .exceedsMiningMax
    else if 0 < s0.maxStake ∧ s0.maxStake < s0.totalDeposits + amount then
      .error .poolCapReached
    else .ok { s0 with
      poolBalance := s0.poolBalance + amount
      userDeposit := Function.update s0.userDeposit sender (s0.userDeposit sender + amount)
      totalDeposits := s0.totalDeposits + amount
      totalRewardableStake := s0.totalRewardableStake + amount }
  | .stakeIntoMining =>
    if s.poolState ≠ PoolState.Idle then .error .poolNotIdle
    else if s.totalDeposits = 0 then .error .nothingToStake
    -- mining.stake(toStake): requires a nonzero amount (holds) and that
    -- the pool is not mid-unstake inside MiningV2
    else if s.mining.isUnstaking then .error .miningAlreadyUnstaking
    else .ok { s with
      poolBalance := s.poolBalance - s.totalDeposits
      mining := { s.mining with staked := s.mining.staked + s.totalDeposits }
      poolState := PoolState.Active }
  | .triggerUnstake =>
    if s.poolState ≠ PoolState.Active then .error .poolNotActive
    -- mining.unstake(): requires a staked balance and no pending unstake
    else if s.mining.staked = 0 then .error .miningNothingStaked
    else if s.mining.isUnstaking then .error .miningAlreadyUnstaking
    else .ok { s with
      mining := { s.mining with
        isUnstaking := true
        unstakeTimestamp := s.now + s.mining.unstakeCooldown }
      poolState := PoolState.Unstaking }
  | .cancelUnstake sender =>
    if sender ≠ s.owner ∧ sender ≠ s.operator then .error .notAuthorized
    else if s.poolState ≠ PoolState.Unstaking then .error .notUnstaking
    -- mining.cancelUnstake(): requires a pending unstake; MockMiningV2
    -- imposes no cooldown condition on cancelling
    else if ¬ s.mining.isUnstaking then .error .miningNotUnstaking
    else .ok { s with
      mining := { s.mining with isUnstaking := false, unstakeTimestamp := 0 }
      poolState := PoolState.Active }
  | .finalizeWithdraw =>
    if s.poolState ≠ PoolState.Unstaking then .error .notUnstaking
    else if s.now < s.mining.unstakeTimestamp then .error .cooldownNotExpired
    -- mining.withdraw(): requires a pending unstake and expired cooldown
    else if ¬ s.mining.isUnstaking then .error .miningNotUnstaking
    else .ok { s with
      poolBalance := s.poolBalance + s.mining.staked
      mining := { s.mining with staked := 0, isUnstaking := false, unstakeTimestamp := 0 }
      poolState := PoolState.Idle }
  | .withdrawShare sender amount =>
    let s0 := updateReward s sender
    if amount = 0 then .error .zeroAmount
    else if s0.poolState ≠ PoolState.Idle then .error .fundsStakedInMining
    else if s0.userDeposit sender < amount then .error .exceedsDeposit
    else .ok { s0 with
      userDeposit := Function.update s0.userDeposit sender (s0.userDeposit sender - amount)
      totalDeposits := s0.totalDeposits - amount
      totalRewardableStake := s0.totalRewardableStake - amount
      poolBalance := s0.poolBalance - amount }
  | .triggerClaim received =>
    -- mining.claim(epochIds) pays the pool `received`; the contract
    -- measures the balance delta and distributes it if positive
    let s1 := { s with poolBalance := s.poolBalance + received }
    if 0 < received then .ok (distributeRewards s1 received) else .ok s1
  | .triggerBonusClaim received =>
    let s1 := { s with poolBalance := s.poolBalance + received }
    if 0 < received then .ok (distributeRewards s1 received) else .ok s1
  | .claimReward sender =>
    let s0 := updateReward s sender
    let reward := s0.rewards sender
    if 0 < reward then .ok { s0 with
      rewards := Function.update s0.rewards sender 0
      poolBalance := s0.poolBalance - reward }
    else .ok s0
  | .setFee sender newFeeBps =>
    if sender ≠ s.owner then .error .notOwner
    else if newFeeBps < s.feeBps then .ok { s with feeBps := newFeeBps }
    else .error .feeCanOnlyDecrease
  | .setOperator sender newOp =>
    if sender ≠ s.owner then .error .notOwner
    else .ok { s with operator := newOp }
  | .envAdvance dt dEpoch => .ok { s with
      now := s.now + dt
      mining := { s.mining with currentEpoch := s.mining.currentEpoch + dEpoch } }
  | .donate amount => .ok { s with poolBalance := s.poolBalance + amount }

/-- EVM semantics of a reverted call: the state is unchanged. -/
def exec {Addr : Type} [DecidableEq Addr] (s : Sys Addr) (op : Op Addr) : Sys Addr :=
  match step s op with
  | .ok s' => s'
  | .error _ => s

/-- Run a sequence of operations. -/
def run {Addr : Type} [DecidableEq Addr] (s : Sys Addr) (ops : List (Op Addr)) : Sys Addr :=
  ops.foldl exec s

/-- A freshly constructed pool: constructor requires, zeroed storage,
poolState = Idle, no stake inside the Mining System yet. -/
def Init {Addr : Type} (s : Sys Addr) : Prop :=
  s.poolState = PoolState.Idle ∧
  (∀ a, s.userDeposit a = 0) ∧
  s.totalDeposits = 0 ∧
  s.rewardPerTokenStored = 0 ∧
  (∀ a, s.userRewardPerTokenPaid a = 0) ∧
  (∀ a, s.rewards a = 0) ∧
  s.totalRewardableStake = 0 ∧
  s.feeBps ≤ MAX_FEE_BPS ∧
  s.protocolFeeBps ≤ MAX_PROTOCOL_FEE_BPS ∧
  s.maxStake ≤ MINING_MAX_STAKE ∧
  s.mining.staked = 0 ∧
  s.mining.isUnstaking = false ∧
  s.poolBalance = 0

/-- States reachable from a freshly constructed pool by any sequence of
operations (reverted calls leave the state unchanged). -/
inductive Reachable {Addr : Type} [DecidableEq Addr] : Sys Addr → Prop where
  | init (s : Sys Addr) : Init s → Reachable s
  | next (s : Sys Addr) (op : Op Addr) : Reachable s → Reachable (exec s op)

/-! Helper lemmas: the updateReward modifier only rewrites the
rewards and userRewardPerTokenPaid maps. -/

@[simp] theorem updateReward_userDeposit {Addr : Type} [DecidableEq Addr]
    (s : Sys Addr) (a : Addr) : (updateReward s a).userDeposit = s.userDeposit := by
  unfold updateReward; split <;> rfl

@[simp] theorem updateReward_totalDeposits {Addr : Type} [DecidableEq Addr]
    (s : Sys Addr) (a : Addr) : (updateReward s a).totalDeposits = s.totalDeposits := by
  unfold updateReward; split <;> rfl

@[simp] theorem updateReward_totalRewardableStake {Addr : Type} [DecidableEq Addr]
    (s : Sys Addr) (a : Addr) :
    (updateReward s a).totalRewardableStake = s.totalRewardableStake := by
  unfold updateReward; split <;> rfl

@[simp] theorem updateReward_poolState {Addr : Type} [DecidableEq Addr]
    (s : Sys Addr) (a : Addr) : (updateReward s a).poolState = s.poolState := by
  unfold updateReward; split <;> rfl

@[simp] theorem updateReward_rewardPerTokenStored {Addr : Type} [DecidableEq Addr]
    (s : Sys Addr) (a : Addr) :
    (updateReward s a).rewardPerTokenStored = s.rewardPerTokenStored := by
  unfold updateReward; split <;> rfl

@[simp] theorem updateReward_feeBps {Addr : Type} [DecidableEq Addr]
    (s : Sys Addr) (a : Addr) : (updateReward s a).feeBps = s.feeBps := by
  unfold updateReward; split <;> rfl

@[simp] theorem updateReward_maxStake {Addr : Type} [DecidableEq Addr]
    (s : Sys Addr) (a : Addr) : (updateReward s a).maxStake = s.maxStake := by
  unfold updateReward; split <;> rfl

@[simp] theorem updateReward_owner {Addr : Type} [DecidableEq Addr]
    (s : Sys Addr) (a : Addr) : (updateReward s a).owner = s.owner := by
  unfold updateReward; split <;> rfl

@[simp] theorem updateReward_operator {Addr : Type} [DecidableEq Addr]
    (s : Sys Addr) (a : Addr) : (updateReward s a).operator = s.operator := by
  unfold updateReward; split <;> rfl

@[simp] theorem updateReward_mining {Addr : Type} [DecidableEq Addr]
    (s : Sys Addr) (a : Addr) : (updateReward s a).mining = s.mining := by
  unfold updateReward; split <;> rfl

@[simp] theorem updateReward_poolBalance {Addr : Type} [DecidableEq Addr]
    (s : Sys Addr) (a : Addr) : (updateReward s a).poolBalance = s.poolBalance := by
  unfold updateReward; split <;> rfl

/-! Helper lemmas: _distributeRewards only moves the pool balance and
(possibly) raises the accumulator. -/

@[simp] theorem distributeRewards_poolState {Addr : Type}
    (s : Sys Addr) (n : Nat) : (distributeRewards s n).poolState = s.poolState := by
  simp only [distributeRewards]; split <;> rfl

@[simp] theorem distributeRewards_userDeposit {Addr : Type}
    (s : Sys Addr) (n : Nat) : (distributeRewards s n).userDeposit = s.userDeposit := by
  simp only [distributeRewards]; split <;> rfl

@[simp] theorem distributeRewards_totalDeposits {Addr : Type}
    (s : Sys Addr) (n : Nat) : (distributeRewards s n).totalDeposits = s.totalDeposits := by
  simp only [distributeRewards]; split <;> rfl

@[simp] theorem distributeRewards_totalRewardableStake {Addr : Type}
    (s : Sys Addr) (n : Nat) :
    (distributeRewards s n).totalRewardableStake = s.totalRewardableStake := by
  simp only [distributeRewards]; split <;> rfl

@[simp] theorem distributeRewards_feeBps {Addr : Type}
    (s : Sys Addr) (n : Nat) : (distributeRewards s n).feeBps = s.feeBps := by
  simp only [distributeRewards]; split <;> rfl

theorem distributeRewards_rewardPerTokenStored_le {Addr : Type}
    (s : Sys Addr) (n : Nat) :
    s.rewardPerTokenStored ≤ (distributeRewards s n).rewardPerTokenStored := by
  simp only [distributeRewards]
  split
  · exact Nat.le_add_right _ _
  · exact Nat.le_refl _

/-- Every successful transition leaves rewardPerTokenStored
unchanged or larger: only _distributeRewards touches it, by adding. -/
theorem step_rewardPerTokenStored_le {Addr : Type} [DecidableEq Addr]
    (s : Sys Addr) (op : Op Addr) (s' : Sys Addr)
    (h : step s op = Except.ok s') :
    s.rewardPerTokenStored ≤ s'.rewardPerTokenStored := by
  cases op <;> simp only [step] at h <;>
    repeat' split at h
  all_goals
    first
    | exact Except.noConfusion h
    | (injection h with h; subst h;
       first
       | simp
       | (refine le_trans ?_ (distributeRewards_rewardPerTokenStored_le _ _); simp))

/-- Every successful transition ends in a pool state that is either
unchanged or one of the three states assigned by _setPoolState calls:
Idle, Active, Unstaking.  No operation assigns Withdrawable. -/
theorem step_poolState_cases {Addr : Type} [DecidableEq Addr]
    (s : Sys Addr) (op : Op Addr) (s' : Sys Addr)
    (h : step s op = Except.ok s') :
    s'.poolState = s.poolState ∨ s'.poolState = PoolState.Idle ∨
      s'.poolState = PoolState.Active ∨ s'.poolState = PoolState.Unstaking := by
  cases op <;> simp only [step] at h <;>
    repeat' split at h
  all_goals
    first
    | exact Except.noConfusion h
    | (injection h with h; subst h; simp)

/-- Every successful transition preserves the accounting identity
between the per-user principal map and its running total. -/
theorem step_sum_userDeposit {Addr : Type} [DecidableEq Addr] [Fintype Addr]
    (s : Sys Addr) (op : Op Addr) (s' : Sys Addr)
    (h : step s op = Except.ok s')
    (ih : (∑ a, s.userDeposit a) = s.totalDeposits) :
    (∑ a, s'.userDeposit a) = s'.totalDeposits := by
  cases op
  case deposit sender amount =>
    simp only [step] at h
    split at h
    · exact Except.noConfusion h
    split at h
    · exact Except.noConfusion h
    split at h
    · exact Except.noConfusion h
    split at h
    · exact Except.noConfusion h
    injection h with h
    subst h
    simp only [updateReward_userDeposit, updateReward_totalDeposits]
    have h1 := Finset.sum_update_of_mem (Finset.mem_univ sender) s.userDeposit
      (s.userDeposit sender + amount)
    have h2 := Finset.sum_eq_sum_diff_singleton_add (Finset.mem_univ sender) s.userDeposit
    omega
  case withdrawShare sender amount =>
    simp only [step] at h
    split at h
    · exact Except.noConfusion h
    split at h
    · exact Except.noConfusion h
    split at h
    · exact Except.noConfusion h
    rename_i hguard
    injection h with h
    subst h
    simp only [updateReward_userDeposit] at hguard
    simp only [updateReward_userDeposit, updateReward_totalDeposits]
    have h1 := Finset.sum_update_of_mem (Finset.mem_univ sender) s.userDeposit
      (s.userDeposit sender - amount)
    have h2 := Finset.sum_eq_sum_diff_singleton_add (Finset.mem_univ sender) s.userDeposit
    omega
  all_goals
    simp only [step] at h
  all_goals
    repeat' split at h
  all_goals
    first
    | exact Except.noConfusion h
    | (injection h with h; subst h; simpa using ih)

theorem exec_eq_of_ok {Addr : Type} [DecidableEq Addr]
    {s s' : Sys Addr} {op : Op Addr} (h : step s op = Except.ok s') :
    exec s op = s' := by
  simp [exec, h]

theorem exec_eq_of_error {Addr : Type} [DecidableEq Addr]
    {s : Sys Addr} {op : Op Addr} {e : Err} (h : step s op = Except.error e) :
    exec s op = s := by
  simp [exec, h]

/-! Concrete instances used by witnesses and counterexamples.
The address space is Bool: address true is the pool owner and the
operator, address false is a second depositor. -/

/-- A freshly deployed pool: 2 percent protocol fee, 5 percent operator
fee, pool cap of 100 base units, Mining System at epoch 1 with a one
day cooldown. -/
def sysInit : Sys Bool :=
  { owner := true, operator := true, protocolFeeBps := 200, maxStake := 100,
    feeBps := 500, poolState := PoolState.Idle,
    userDeposit := fun _ => 0, totalDeposits := 0,
    rewardPerTokenStored := 0, userRewardPerTokenPaid := fun _ => 0,
    rewards := fun _ => 0, totalRewardableStake := 0,
    mining := { staked := 0, isUnstaking := false, unstakeTimestamp := 0,
                unstakeCooldown := 86400, currentEpoch := 1 },
    now := 0, poolBalance := 0 }

theorem init_sysInit : Init sysInit := by
  refine ⟨rfl, fun a => rfl, rfl, rfl, fun a => rfl, fun a => rfl, rfl,
    ?_, ?_, ?_, rfl, rfl, rfl⟩ <;> decide

/-- sysInit after a deposit of 100 by address true and a permissionless
stakeIntoMining: the pool is Active with 100 staked, still in epoch 1. -/
def sysActive : Sys Bool :=
  run sysInit [Op.deposit true 100, Op.stakeIntoMining]

theorem reachable_sysActive : Reachable sysActive :=
  Reachable.next _ Op.stakeIntoMining
    (Reachable.next _ (Op.deposit true 100)
      (Reachable.init sysInit init_sysInit))

/-- Claim C3: in every state reachable by any sequence of the pool's
operations, the sum of all depositors' userDeposit balances equals the
pool's totalDeposits. -/
theorem reachable_sum_userDeposit_eq_totalDeposits
    {Addr : Type} [DecidableEq Addr] [Fintype Addr]
    (s : Sys Addr) (h : Reachable s) :
    (∑ a, s.userDeposit a) = s.totalDeposits := by
  induction h with
  | init s hs =>
    obtain ⟨-, hud, htd, -⟩ := hs
    simp [hud, htd]
  | next s op hr ih =>
    cases hstep : step s op with
    | ok s' => rw [exec_eq_of_ok hstep]; exact step_sum_userDeposit s op s' hstep ih
    | error e => rw [exec_eq_of_error hstep]; exact ih

/-- Witness for C3 at a concrete reachable state: after a deposit of
100 by address true and a stakeIntoMining, the deposits sum to the
recorded total. -/
theorem reachable_sum_userDeposit_eq_totalDeposits_witness :
    (∑ a : Bool, sysActive.userDeposit a) = sysActive.totalDeposits :=
  reachable_sum_userDeposit_eq_totalDeposits sysActive reachable_sysActive

/-- Claim C4: the accumulator rewardPerTokenStored never decreases:
after any sequence of operations from any starting state it is at least
its starting value. -/
theorem rewardPerTokenStored_monotone {Addr : Type} [DecidableEq Addr]
    (s : Sys Addr) (ops : List (Op Addr)) :
    s.rewardPerTokenStored ≤ (run s ops).rewardPerTokenStored := by
  induction ops generalizing s with
  | nil => exact Nat.le_refl _
  | cons op ops ih =>
    have h1 : s.rewardPerTokenStored ≤ (exec s op).rewardPerTokenStored := by
      cases hstep : step s op with
      | ok s' =>
        rw [exec_eq_of_ok hstep]
        exact step_rewardPerTokenStored_le s op s' hstep
      | error e => rw [exec_eq_of_error hstep]
    exact le_trans h1 (ih (exec s op))

/-- Claim C10: the Withdrawable member of the PoolState enum is dead:
no reachable state has poolState = Withdrawable (finalizeWithdraw moves
Unstaking directly back to Idle). -/
theorem reachable_poolState_ne_withdrawable {Addr : Type} [DecidableEq Addr]
    (s : Sys Addr) (h : Reachable s) :
    s.poolState ≠ PoolState.Withdrawable := by
  induction h with
  | init s hs => rw [hs.1]; exact fun hc => PoolState.noConfusion hc
  | next s op hr ih =>
    cases hstep : step s op with
    | ok s' =>
      rw [exec_eq_of_ok hstep]
      rcases step_poolState_cases s op s' hstep with h1 | h1 | h1 | h1 <;>
        rw [h1]
      · exact ih
      · exact fun hc => PoolState.noConfusion hc
      · exact fun hc => PoolState.noConfusion hc
      · exact fun hc => PoolState.noConfusion hc
    | error e => rw [exec_eq_of_error hstep]; exact ih

/-- Witness for C10 at a concrete reachable state. -/
theorem reachable_poolState_ne_withdrawable_witness :
    sysActive.poolState ≠ PoolState.Withdrawable :=
  reachable_poolState_ne_withdrawable sysActive reachable_sysActive

/-- Claim C1 (behaviour the code actually has, contradicting the spec
and the repository's own test suite): with no stakers
(totalRewardableStake = 0, the freshly deployed sysInit) and a positive
balance delta of 1000 from the external claim, both triggerClaim and
triggerBonusClaim SUCCEED instead of reverting with NoStakers; the
protocol fee (20) and operator fee (49) are paid out of the inflow, the
remaining 931 stays in the pool credited to nobody, and the accumulator
and all per-user rewards stay 0. -/
theorem triggerClaim_no_stakers_pays_fees :
    (step sysInit (Op.triggerClaim 1000)).map
      (fun s => (s.rewardPerTokenStored, s.poolBalance, s.rewards true,
        s.rewards false, s.totalRewardableStake)) =
      Except.ok (0, 931, 0, 0, 0) ∧
    (step sysInit (Op.triggerBonusClaim 1000)).map
      (fun s => (s.rewardPerTokenStored, s.poolBalance, s.rewards true,
        s.rewards false, s.totalRewardableStake)) =
      Except.ok (0, 931, 0, 0, 0) :=
  ⟨rfl, rfl⟩

/-- Claim C2 (behaviour the code actually has, contradicting the spec
and the repository's own test suite): unstaking is single-step and not
epoch-gated.  From the Active state sysActive, reached by staking at
external epoch 1, triggerUnstake succeeds immediately while the
external epoch is still 1 and moves the pool to Unstaking; there is no
requestUnstake/executeUnstake pair, no recorded unstakeRequestEpoch and
no EpochNotElapsed failure. -/
theorem triggerUnstake_succeeds_same_epoch :
    (step sysActive Op.triggerUnstake).map
      (fun s => (s.poolState, s.mining.currentEpoch)) =
      Except.ok (PoolState.Unstaking, 1) :=
  rfl

/-- Claim C5: the fee cascade of _distributeRewards is exact
fixed-point integer arithmetic with floor rounding (Nat division) at
each step: protocolCut = gross * protocolFeeBps / 10000, operatorCut =
(gross - protocolCut) * feeBps / 10000, distributable is the remainder,
the three parts never exceed gross, and a gross inflow of 1000 with a
2 percent protocol fee and 5 percent operator fee splits into
20 / 49 / 931. -/
theorem feeCascade_floor_split (gross pBps oBps : Nat)
    (hp : pBps ≤ MAX_PROTOCOL_FEE_BPS) (ho : oBps ≤ MAX_FEE_BPS) :
    (feeCascade gross pBps oBps).1 = gross * pBps / 10000 ∧
    (feeCascade gross pBps oBps).2.1 =
      (gross - gross * pBps / 10000) * oBps / 10000 ∧
    (feeCascade gross pBps oBps).2.2 =
      (gross - gross * pBps / 10000) -
        (gross - gross * pBps / 10000) * oBps / 10000 ∧
    (feeCascade gross pBps oBps).1 + (feeCascade gross pBps oBps).2.1 +
      (feeCascade gross pBps oBps).2.2 ≤ gross ∧
    feeCascade 1000 200 500 = (20, 49, 931) := by
  have hple : pBps ≤ 10000 := le_trans hp (by decide)
  have hole : oBps ≤ 10000 := le_trans ho (by decide)
  have h1 : gross * pBps / 10000 ≤ gross := by
    have h := Nat.div_le_div_right (c := 10000) (Nat.mul_le_mul_left gross hple)
    rwa [Nat.mul_div_cancel _ (by decide : 0 < 10000)] at h
  have h2 : (gross - gross * pBps / 10000) * oBps / 10000 ≤
      gross - gross * pBps / 10000 := by
    have h := Nat.div_le_div_right (c := 10000)
      (Nat.mul_le_mul_left (gross - gross * pBps / 10000) hole)
    rwa [Nat.mul_div_cancel _ (by decide : 0 < 10000)] at h
  refine ⟨rfl, rfl, rfl, ?_, rfl⟩
  simp only [feeCascade]
  omega

/-- Witness for C5: the worked example from the spec, with the fee-rate
bounds discharged on the contract's fee ceilings. -/
theorem feeCascade_floor_split_witness :
    feeCascade 1000 200 500 = (20, 49, 931) :=
  (feeCascade_floor_split 1000 200 500 (by decide) (by decide)).2.2.2.2

/-- Counterexample to C6 as stated: with the pool Active (state not
Idle), a withdrawal request of amount 0 reverts with the zero-amount
(InvalidAmount) reason, not with FundsStaked — the amount check runs
before the lifecycle-state check. -/
theorem withdrawShare_zero_amount_error_active :
    step sysActive (Op.withdrawShare true 0) = Except.error Err.zeroAmount ∧
    Err.zeroAmount ≠ Err.fundsStakedInMining :=
  ⟨rfl, by decide⟩

/-- Claim C6 (amended): withdrawShare first requires a positive amount,
failing with the zero-amount reason for amount = 0 in any pool state;
for every positive amount it fails with FundsStaked whenever the pool
is not Idle; when Idle it additionally requires amount at most the
caller's principal, failing with ExceedsDeposit otherwise; and on
success it decrements the caller's principal, totalDeposits and
totalRewardableStake by exactly the amount. -/
theorem withdrawShare_spec {Addr : Type} [DecidableEq Addr]
    (s : Sys Addr) (sender : Addr) (amount : Nat) :
    (amount = 0 →
      step s (Op.withdrawShare sender amount) = Except.error Err.zeroAmount) ∧
    (0 < amount → s.poolState ≠ PoolState.Idle →
      step s (Op.withdrawShare sender amount) = Except.error Err.fundsStakedInMining) ∧
    (0 < amount → s.poolState = PoolState.Idle → s.userDeposit sender < amount →
      step s (Op.withdrawShare sender amount) = Except.error Err.exceedsDeposit) ∧
    (∀ s', step s (Op.withdrawShare sender amount) = Except.ok s' →
      0 < amount ∧ s.poolState = PoolState.Idle ∧ amount ≤ s.userDeposit sender ∧
      s'.userDeposit sender = s.userDeposit sender - amount ∧
      s'.totalDeposits = s.totalDeposits - amount ∧
      s'.totalRewardableStake = s.totalRewardableStake - amount) := by
  refine ⟨?_, ?_, ?_, ?_⟩
  · intro h
    subst h
    simp [step]
  · intro h0 hst
    have hne : amount ≠ 0 := Nat.pos_iff_ne_zero.mp h0
    simp [step, hne, hst]
  · intro h0 hst hlt
    have hne : amount ≠ 0 := Nat.pos_iff_ne_zero.mp h0
    simp [step, hne, hst, hlt]
  · intro s' h
    simp only [step] at h
    split at h
    · exact Except.noConfusion h
    rename_i hne
    split at h
    · exact Except.noConfusion h
    rename_i hstate
    split at h
    · exact Except.noConfusion h
    rename_i hdep
    injection h with h
    subst h
    simp only [updateReward_poolState, not_not] at hstate
    simp only [updateReward_userDeposit] at hdep
    exact ⟨Nat.pos_of_ne_zero hne, hstate, Nat.le_of_not_lt hdep,
      by simp, by simp, by simp⟩

/-- Witness for C6 at the spec's own boundary scenario: with the pool
Active, withdrawing the depositor's full principal of 100 fails with
FundsStaked. -/
theorem withdrawShare_spec_witness :
    step sysActive (Op.withdrawShare true 100) =
      Except.error Err.fundsStakedInMining :=
  (withdrawShare_spec sysActive true 100).2.1 (by decide) (by decide)

/-- sysActive after a permissionless triggerUnstake and a time advance
far beyond the one-day cooldown: the pool is Unstaking and the external
cooldown has expired. -/
def sysUnstakingLate : Sys Bool :=
  run sysActive [Op.triggerUnstake, Op.envAdvance 100000 0]

/-- Counterexample to C7 as stated: in state sysUnstakingLate the
external cooldown has already expired (now is past
mining.unstakeTimestamp), yet cancelUnstake by the owner still succeeds
and returns the pool to Active — neither the pool nor MockMiningV2
checks cooldown expiry on cancel. -/
theorem cancelUnstake_after_cooldown_succeeds :
    sysUnstakingLate.mining.unstakeTimestamp ≤ sysUnstakingLate.now ∧
    (step sysUnstakingLate (Op.cancelUnstake true)).map (fun s => s.poolState) =
      Except.ok PoolState.Active :=
  ⟨by decide, rfl⟩

/-- Claim C7 (amended): cancelUnstake succeeds exactly when the caller
is the pool owner or the operator, the pool is Unstaking and the
external unstake is pending — with no condition on the cooldown; on
success the pool returns to Active, and any other caller fails with
NotAuthorized and no state change. -/
theorem cancelUnstake_spec {Addr : Type} [DecidableEq Addr]
    (s : Sys Addr) (sender : Addr) :
    (∀ s', step s (Op.cancelUnstake sender) = Except.ok s' →
      (sender = s.owner ∨ sender = s.operator) ∧
      s.poolState = PoolState.Unstaking ∧
      s.mining.isUnstaking = true ∧ s'.poolState = PoolState.Active) ∧
    (¬(sender = s.owner ∨ sender = s.operator) →
      step s (Op.cancelUnstake sender) = Except.error Err.notAuthorized ∧
      exec s (Op.cancelUnstake sender) = s) ∧
    ((sender = s.owner ∨ sender = s.operator) →
      s.poolState = PoolState.Unstaking → s.mining.isUnstaking = true →
      ∃ s', step s (Op.cancelUnstake sender) = Except.ok s' ∧
        s'.poolState = PoolState.Active) := by
  refine ⟨?_, ?_, ?_⟩
  · intro s' h
    simp only [step] at h
    split at h
    · exact Except.noConfusion h
    rename_i hauth
    split at h
    · exact Except.noConfusion h
    rename_i hstate
    split at h
    · exact Except.noConfusion h
    rename_i hmin
    injection h with h
    subst h
    refine ⟨by tauto, not_not.mp hstate, not_not.mp hmin, rfl⟩
  · intro hna
    have h1 : sender ≠ s.owner ∧ sender ≠ s.operator := by tauto
    have herr : step s (Op.cancelUnstake sender) = Except.error Err.notAuthorized := by
      simp [step, h1.1, h1.2]
    exact ⟨herr, exec_eq_of_error herr⟩
  · intro hauth hstate hmin
    rcases hauth with h | h <;> simp [step, h, hstate, hmin]

/-- Witness for C7: the authorized cancel at sysUnstakingLate succeeds
and lands in Active. -/
theorem cancelUnstake_spec_witness :
    ∃ s', step sysUnstakingLate (Op.cancelUnstake true) = Except.ok s' ∧
      s'.poolState = PoolState.Active :=
  (cancelUnstake_spec sysUnstakingLate true).2.2 (Or.inl (by decide))
    (by decide) (by decide)

/-- Claim C8: every successful setFee call is owner-initiated and
strictly decreases feeBps to the requested value, and an owner call
with a rate at least the current one reverts and leaves the rate
unchanged. -/
theorem setFee_strictly_decreasing {Addr : Type} [DecidableEq Addr]
    (s : Sys Addr) (sender : Addr) (f : Nat) :
    (∀ s', step s (Op.setFee sender f) = Except.ok s' →
      sender = s.owner ∧ f < s.feeBps ∧ s'.feeBps = f ∧ s'.feeBps < s.feeBps) ∧
    (sender = s.owner → s.feeBps ≤ f →
      step s (Op.setFee sender f) = Except.error Err.feeCanOnlyDecrease ∧
      (exec s (Op.setFee sender f)).feeBps = s.feeBps) := by
  constructor
  · intro s' h
    simp only [step] at h
    split at h
    · exact Except.noConfusion h
    rename_i hown
    split at h
    · rename_i hlt
      injection h with h
      subst h
      exact ⟨not_not.mp hown, hlt, rfl, hlt⟩
    · exact Except.noConfusion h
  · intro hown hle
    have herr : step s (Op.setFee sender f) = Except.error Err.feeCanOnlyDecrease := by
      simp [step, hown, Nat.not_lt.mpr hle]
    rw [exec_eq_of_error herr]
    exact ⟨herr, rfl⟩

/-- Witness for C8: lowering the 5 percent fee to 4 percent succeeds
with the new strictly smaller rate. -/
theorem setFee_strictly_decreasing_witness :
    true = sysInit.owner ∧ 400 < sysInit.feeBps ∧
      (exec sysInit (Op.setFee true 400)).feeBps = 400 ∧
      (exec sysInit (Op.setFee true 400)).feeBps < sysInit.feeBps :=
  (setFee_strictly_decreasing sysInit true 400).1
    (exec sysInit (Op.setFee true 400)) rfl

/-- Claim C9: a successful deposit requires a positive amount, the Idle
state, and the new total within both the Mining System absolute cap and
the pool cap when one is set; a failed deposit reverts with one of the
zero-amount, not-idle, mining-max or pool-cap reasons; and in the
concrete cap-100 pool, after a deposit of 100 a further deposit of 1
from the other account fails with the pool-cap reason. -/
theorem deposit_spec {Addr : Type} [DecidableEq Addr]
    (s : Sys Addr) (sender : Addr) (amount : Nat) :
    (∀ s', step s (Op.deposit sender amount) = Except.ok s' →
      0 < amount ∧ s.poolState = PoolState.Idle ∧
      s.totalDeposits + amount ≤ MINING_MAX_STAKE ∧
      (0 < s.maxStake → s.totalDeposits + amount ≤ s.maxStake)) ∧
    (∀ e, step s (Op.deposit sender amount) = Except.error e →
      e = Err.zeroAmount ∨ e = Err.depositsOnlyWhenIdle ∨
      e = Err.exceedsMiningMax ∨ e = Err.poolCapReached) ∧
    step (exec sysInit (Op.deposit true 100)) (Op.deposit false 1) =
      Except.error Err.poolCapReached := by
  refine ⟨?_, ?_, rfl⟩
  · intro s' h
    simp only [step] at h
    split at h
    · exact Except.noConfusion h
    rename_i hne
    split at h
    · exact Except.noConfusion h
    rename_i hstate
    split at h
    · exact Except.noConfusion h
    rename_i hmax
    split at h
    · exact Except.noConfusion h
    rename_i hcap
    simp only [updateReward_poolState, updateReward_totalDeposits,
      updateReward_maxStake, not_not, not_lt, not_and, not_le] at hstate hmax hcap
    exact ⟨Nat.pos_of_ne_zero hne, hstate, hmax, fun hpos => hcap hpos⟩
  · intro e h
    simp only [step] at h
    split at h
    · injection h with h; subst h; tauto
    split at h
    · injection h with h; subst h; tauto
    split at h
    · injection h with h; subst h; tauto
    split at h
    · injection h with h; subst h; tauto
    · exact Except.noConfusion h

/-- Witness for C9: the successful first deposit of 100 into the
cap-100 pool satisfies all three conditions. -/
theorem deposit_spec_witness :
    0 < 100 ∧ sysInit.poolState = PoolState.Idle ∧
      sysInit.totalDeposits + 100 ≤ MINING_MAX_STAKE ∧
      (0 < sysInit.maxStake → sysInit.totalDeposits + 100 ≤ sysInit.maxStake) :=
  (deposit_spec sysInit true 100).1 (exec sysInit (Op.deposit true 100)) rfl

end BotcoinPool
